import Mathlib

/-!
Verification of the Kibana excerpt: the `readKibanaConfig` config loader,
the `Chart` panel component (`chart.tsx`), and the `useIsDarkTheme` theme
hook (`hooks.ts`), shallowly embedded in Lean.
-/

namespace KibanaSpec

/-! ## Config loader (`readKibanaConfig`) -/

/-- A settings object, modelled as an association list where a later binding
shadows an earlier one (JS object-spread semantics). -/
def ConfigObj := List (String × String)

/-- Lookup in a settings object: the LAST binding for a key wins, matching
the semantics of building a JS object left to right with spreads. -/
def getVal : List (String × String) → String → Option String
  | [], _ => none
  | (k, v) :: rest, key =>
    match getVal rest key with
    | some w => some w
    | none => if k == key then some v else none

/-- The environment variables read by the config loader; `none` means the
variable is not present in the process environment. -/
structure Env where
  ELASTICSEARCH_USERNAME : Option String
  ELASTICSEARCH_PASSWORD : Option String
  ELASTICSEARCH_HOST : Option String

/-- A file system: `existsSync` tells whether a path exists, `readFileSync`
returns the content or `none` when the read throws (file missing). -/
structure FileSystem where
  existsSync : String → Bool
  readFileSync : String → Option String

/-- Path of the dev config file, `path.join(kibanaConfigDir, 'kibana.dev.yml')`. -/
def kibanaDevConfig : String := "config/kibana.dev.yml"

/-- Path of the production config file, `path.join(kibanaConfigDir, 'kibana.yml')`. -/
def kibanaConfigPath : String := "config/kibana.yml"

/-- JS string truthiness: the only falsy string is the empty string. -/
def jsTruthyString (s : String) : Bool := !(s == "")

/-- Lodash `pickBy(obj, identity)` over an object whose values may be
`undefined` (`none`): keeps exactly the entries with a truthy value. -/
def pickByIdentity : List (String × Option String) → List (String × String)
  | [] => []
  | (_, none) :: rest => pickByIdentity rest
  | (k, some v) :: rest =>
    if jsTruthyString v then (k, v) :: pickByIdentity rest else pickByIdentity rest

/-- The `cliEsCredentials` object of `readKibanaConfig`: the three
elasticsearch env vars, filtered by `pickBy(..., identity)`. -/
def cliEsCredentials (env : Env) : List (String × String) :=
  pickByIdentity
    [("elasticsearch.username", env.ELASTICSEARCH_USERNAME),
     ("elasticsearch.password", env.ELASTICSEARCH_PASSWORD),
     ("elasticsearch.hosts", env.ELASTICSEARCH_HOST)]

/-- The built-in defaults of the object literal returned by
`readKibanaConfig`, in source order, before the two spreads. -/
def defaultSettings : List (String × String) :=
  [("xpack.apm.indices.transaction", "traces-apm*,apm-*,traces-*.otel-*"),
   ("xpack.apm.indices.metric", "metrics-apm*,apm-*,metrics-*.otel-*"),
   ("xpack.apm.indices.error", "logs-apm*,apm-*,logs-*.otel-*"),
   ("xpack.apm.indices.span", "traces-apm*,apm-*,traces-*.otel-*"),
   ("xpack.apm.indices.onboarding", "apm-*"),
   ("elasticsearch.hosts", "http://localhost:9200")]

/-- The keys given built-in defaults. -/
def defaultedKeys : List String := defaultSettings.map Prod.fst

/-- The path chosen by `fs.existsSync(kibanaDevConfig) ? kibanaDevConfig : kibanaConfig`. -/
def chosenPath (fs : FileSystem) : String :=
  if fs.existsSync kibanaDevConfig then kibanaDevConfig else kibanaConfigPath

/-- The merge performed on the loaded document: the returned object literal
with its defaults, then `...loadedKibanaConfig`, then `...cliEsCredentials`.
`yaml.load(...) || {}` maps a null/undefined document to the empty object. -/
def mergeSettings (doc : Option (List (String × String))) (env : Env) :
    List (String × String) :=
  defaultSettings ++ doc.getD [] ++ cliEsCredentials env

/-- `readKibanaConfig`, parametrised by the YAML parser (`yaml.load`):
`Except.error` models a thrown exception (missing file or parse failure);
a parsed document is `none` when `yaml.load` returns null/undefined. -/
def readKibanaConfig (parse : String → Except String (Option (List (String × String))))
    (fs : FileSystem) (env : Env) : Except String (List (String × String)) :=
  match fs.readFileSync (chosenPath fs) with
  | none => Except.error "ENOENT"
  | some content =>
    match parse content with
    | Except.error e => Except.error e
    | Except.ok doc => Except.ok (mergeSettings doc env)

/-- Last-wins lookup over an append: the right-hand object shadows the left,
matching `{...a, ...b}`. -/
theorem getVal_append (a b : List (String × String)) (k : String) :
    getVal (a ++ b) k =
      match getVal b k with
      | some w => some w
      | none => getVal a k := by
  induction a with
  | nil => cases h : getVal b k <;> simp [getVal, h]
  | cons hd tl ih =>
    obtain ⟨k', v'⟩ := hd
    have hstep : getVal (((k', v') :: tl) ++ b) k =
        match getVal (tl ++ b) k with
        | some w => some w
        | none => if k' == k then some v' else none := rfl
    rw [hstep, ih]
    cases hb : getVal b k <;> cases ht : getVal tl k <;> simp [getVal, ht]

/-- Lookup in `pickByIdentity l` misses every key that no entry of `l` binds. -/
theorem getVal_pickByIdentity_of_not_mem (l : List (String × Option String))
    (k : String) (h : ∀ p ∈ l, p.1 ≠ k) :
    getVal (pickByIdentity l) k = none := by
  induction l with
  | nil => rfl
  | cons hd tl ih =>
    obtain ⟨k', v⟩ := hd
    have hk' : k' ≠ k := h (k', v) (List.mem_cons_self _ _)
    have htl : ∀ p ∈ tl, p.1 ≠ k := fun p hp => h p (List.mem_cons_of_mem _ hp)
    cases v with
    | none => simpa [pickByIdentity] using ih htl
    | some v =>
      by_cases ht : jsTruthyString v
      · simp [pickByIdentity, ht, getVal, ih htl, hk']
      · simp [pickByIdentity, ht, ih htl]

/-- The env-override object binds no key other than the three elasticsearch
connection keys. -/
theorem getVal_cliEsCredentials_other (env : Env) (k : String)
    (h₁ : k ≠ "elasticsearch.username") (h₂ : k ≠ "elasticsearch.password")
    (h₃ : k ≠ "elasticsearch.hosts") :
    getVal (cliEsCredentials env) k = none := by
  unfold cliEsCredentials
  refine getVal_pickByIdentity_of_not_mem _ _ ?_
  intro q hq
  simp only [List.mem_cons, List.not_mem_nil, or_false] at hq
  rcases hq with h | h | h <;> subst h
  · exact Ne.symm h₁
  · exact Ne.symm h₂
  · exact Ne.symm h₃

/-- `pickByIdentity` distributes over append. -/
theorem pickByIdentity_append (l₁ l₂ : List (String × Option String)) :
    pickByIdentity (l₁ ++ l₂) = pickByIdentity l₁ ++ pickByIdentity l₂ := by
  induction l₁ with
  | nil => rfl
  | cons hd tl ih =>
    obtain ⟨k, v⟩ := hd
    cases v with
    | none => simpa [pickByIdentity] using ih
    | some v =>
      by_cases ht : jsTruthyString v <;> simp [pickByIdentity, ht, ih]

/-- Splitting the env-override object into its three single-entry pieces. -/
theorem cliEsCredentials_split (env : Env) :
    cliEsCredentials env =
      pickByIdentity [("elasticsearch.username", env.ELASTICSEARCH_USERNAME)] ++
      (pickByIdentity [("elasticsearch.password", env.ELASTICSEARCH_PASSWORD)] ++
       pickByIdentity [("elasticsearch.hosts", env.ELASTICSEARCH_HOST)]) := by
  rw [← pickByIdentity_append, ← pickByIdentity_append]
  rfl

/-- Lookup in a filtered singleton whose key differs from the query. -/
theorem getVal_pickByIdentity_single_ne (k k' : String) (v : Option String)
    (h : k ≠ k') : getVal (pickByIdentity [(k, v)]) k' = none := by
  refine getVal_pickByIdentity_of_not_mem _ _ ?_
  intro q hq
  simp only [List.mem_cons, List.not_mem_nil, or_false] at hq
  subst hq
  exact h

/-- Lookup in a filtered singleton at its own key, when the value is set
and truthy. -/
theorem getVal_pickByIdentity_single_hit (k v : String)
    (ht : jsTruthyString v = true) :
    getVal (pickByIdentity [(k, some v)]) k = some v := by
  simp [pickByIdentity, ht, getVal]

/-- A set, non-empty `ELASTICSEARCH_USERNAME` appears in the env overrides. -/
theorem getVal_cliEsCredentials_username (env : Env) (u : String)
    (hu : env.ELASTICSEARCH_USERNAME = some u) (ht : jsTruthyString u = true) :
    getVal (cliEsCredentials env) "elasticsearch.username" = some u := by
  rw [cliEsCredentials_split, getVal_append, getVal_append, hu,
    getVal_pickByIdentity_single_ne "elasticsearch.hosts" _ _ (by decide),
    getVal_pickByIdentity_single_ne "elasticsearch.password" _ _ (by decide),
    getVal_pickByIdentity_single_hit _ _ ht]

/-- A set, non-empty `ELASTICSEARCH_PASSWORD` appears in the env overrides. -/
theorem getVal_cliEsCredentials_password (env : Env) (p : String)
    (hp : env.ELASTICSEARCH_PASSWORD = some p) (ht : jsTruthyString p = true) :
    getVal (cliEsCredentials env) "elasticsearch.password" = some p := by
  rw [cliEsCredentials_split, getVal_append, getVal_append, hp,
    getVal_pickByIdentity_single_ne "elasticsearch.hosts" _ _ (by decide),
    getVal_pickByIdentity_single_hit _ _ ht]

/-- A set, non-empty `ELASTICSEARCH_HOST` appears in the env overrides under
the key `elasticsearch.hosts`. -/
theorem getVal_cliEsCredentials_host (env : Env) (hst : String)
    (hh : env.ELASTICSEARCH_HOST = some hst) (ht : jsTruthyString hst = true) :
    getVal (cliEsCredentials env) "elasticsearch.hosts" = some hst := by
  rw [cliEsCredentials_split, getVal_append, getVal_append, hh,
    getVal_pickByIdentity_single_hit _ _ ht]

/-- Lookup in the merged settings follows the precedence chain
env overrides, then loaded YAML document, then built-in defaults. -/
theorem getVal_mergeSettings (doc : Option (List (String × String))) (env : Env)
    (k : String) :
    getVal (mergeSettings doc env) k =
      match getVal (cliEsCredentials env) k with
      | some v => some v
      | none =>
        match getVal (doc.getD []) k with
        | some v => some v
        | none => getVal defaultSettings k := by
  have h1 := getVal_append defaultSettings
    (doc.getD [] ++ cliEsCredentials env) k
  have h2 := getVal_append (doc.getD []) (cliEsCredentials env) k
  rw [show mergeSettings doc env =
    defaultSettings ++ (doc.getD [] ++ cliEsCredentials env) from rfl, h1, h2]
  cases getVal (cliEsCredentials env) k <;> cases getVal (doc.getD []) k <;> simp

/-- Reading and merging the config at a given path: the part of
`readKibanaConfig` after the dev/prod path selection. -/
def loadFrom (parse : String → Except String (Option (List (String × String))))
    (fs : FileSystem) (p : String) (env : Env) :
    Except String (List (String × String)) :=
  match fs.readFileSync p with
  | none => Except.error "ENOENT"
  | some content =>
    match parse content with
    | Except.error e => Except.error e
    | Except.ok doc => Except.ok (mergeSettings doc env)

/-- A successful run of `readKibanaConfig` decomposes into a successful file
read, a successful parse, and the three-way merge of the document. -/
theorem readKibanaConfig_ok
    (parse : String → Except String (Option (List (String × String))))
    (fs : FileSystem) (env : Env) (cfg : List (String × String))
    (h : readKibanaConfig parse fs env = Except.ok cfg) :
    ∃ content doc, fs.readFileSync (chosenPath fs) = some content ∧
      parse content = Except.ok doc ∧ cfg = mergeSettings doc env := by
  unfold readKibanaConfig at h
  split at h
  · exact absurd h (by simp)
  · rename_i content hr
    split at h
    · exact absurd h (by simp)
    · rename_i doc hp
      refine ⟨content, doc, hr, hp, ?_⟩
      injection h with h
      exact h.symm

/-- A successful read and parse produce the three-way merge. -/
theorem readKibanaConfig_eq_ok
    (parse : String → Except String (Option (List (String × String))))
    (fs : FileSystem) (env : Env) (content : String)
    (doc : Option (List (String × String)))
    (hr : fs.readFileSync (chosenPath fs) = some content)
    (hp : parse content = Except.ok doc) :
    readKibanaConfig parse fs env = Except.ok (mergeSettings doc env) := by
  unfold readKibanaConfig
  rw [hr]
  simp [hp]

/-- The loader output depends on the environment only through the filtered
env-override object. -/
theorem readKibanaConfig_congr_cli
    (parse : String → Except String (Option (List (String × String))))
    (fs : FileSystem) (env env' : Env)
    (h : cliEsCredentials env = cliEsCredentials env') :
    readKibanaConfig parse fs env = readKibanaConfig parse fs env' := by
  unfold readKibanaConfig
  cases fs.readFileSync (chosenPath fs) with
  | none => rfl
  | some content =>
    dsimp only
    cases parse content with
    | error e => rfl
    | ok doc =>
      dsimp only
      simp [mergeSettings, h]

/-! ### Sample inputs for concrete evaluations -/

/-- A sample YAML parser with one mapping document, one failing document and
one empty (null) document. -/
def sampleParse : String → Except String (Option (List (String × String))) :=
  fun s =>
    if s = "user: yaml" then
      Except.ok (some [("elasticsearch.username", "fromyaml")])
    else if s = "bad" then Except.error "parse failure"
    else if s = "empty" then Except.ok none
    else Except.ok (some [("k1", "v1")])

/-- A file system where both the dev and the production config exist. -/
def sampleFsBoth : FileSystem where
  existsSync := fun p => p == kibanaDevConfig || p == kibanaConfigPath
  readFileSync := fun p =>
    if p == kibanaDevConfig then some "devcontent"
    else if p == kibanaConfigPath then some "user: yaml"
    else none

/-- A file system where only the production config exists. -/
def sampleFsProdOnly : FileSystem where
  existsSync := fun p => p == kibanaConfigPath
  readFileSync := fun p =>
    if p == kibanaConfigPath then some "user: yaml" else none

/-- A file system whose (production) config file is malformed YAML. -/
def sampleFsBad : FileSystem where
  existsSync := fun _ => false
  readFileSync := fun _ => some "bad"

/-- A file system whose config file parses to a null document. -/
def sampleFsEmptyDoc : FileSystem where
  existsSync := fun _ => false
  readFileSync := fun _ => some "empty"

/-- An environment with none of the three variables set. -/
def emptyEnv : Env := ⟨none, none, none⟩

/-- An environment setting only `ELASTICSEARCH_USERNAME`, non-empty. -/
def envWithUser : Env := ⟨some "cliuser", none, none⟩

/-- An environment setting `ELASTICSEARCH_USERNAME` to the empty string. -/
def envEmptyUser : Env := ⟨some "", none, none⟩

/-! ### Claim theorems for the config loader -/

/-- C1: `readKibanaConfig` loads its YAML settings from `kibana.dev.yml`
whenever that file exists and otherwise from `kibana.yml`; when both exist
the returned mapping contains the dev config's values (for keys the env
overrides leave untouched), and a missing dev file silently falls back to
the production path. -/
theorem readKibanaConfig_dev_precedence
    (parse : String → Except String (Option (List (String × String))))
    (fs : FileSystem) (env : Env) :
    (fs.existsSync kibanaDevConfig = true →
      readKibanaConfig parse fs env = loadFrom parse fs kibanaDevConfig env) ∧
    (fs.existsSync kibanaDevConfig = false →
      readKibanaConfig parse fs env = loadFrom parse fs kibanaConfigPath env) ∧
    (∀ content doc k v,
      fs.existsSync kibanaDevConfig = true →
      fs.readFileSync kibanaDevConfig = some content →
      parse content = Except.ok (some doc) →
      getVal doc k = some v →
      getVal (cliEsCredentials env) k = none →
      readKibanaConfig parse fs env = Except.ok (mergeSettings (some doc) env) ∧
      getVal (mergeSettings (some doc) env) k = some v) := by
  refine ⟨?_, ?_, ?_⟩
  · intro h
    simp [readKibanaConfig, loadFrom, chosenPath, h]
  · intro h
    simp [readKibanaConfig, loadFrom, chosenPath, h]
  · intro content doc k v hex hread hparse hget hcli
    constructor
    · refine readKibanaConfig_eq_ok parse fs env content (some doc) ?_ hparse
      rw [chosenPath, if_pos hex]
      exact hread
    · rw [getVal_mergeSettings, hcli]
      simp [hget]

/-- C1 witness: on a file system where both config files exist, the loader
returns the mapping merged from the dev file's document. -/
theorem readKibanaConfig_dev_precedence_witness :
    sampleFsBoth.existsSync kibanaDevConfig = true ∧
    readKibanaConfig sampleParse sampleFsBoth emptyEnv =
      Except.ok (mergeSettings (some [("k1", "v1")]) emptyEnv) := by
  refine ⟨by decide, ?_⟩
  rw [(readKibanaConfig_dev_precedence sampleParse sampleFsBoth emptyEnv).1 (by decide)]
  rfl

/-- C2 counterexample: `ELASTICSEARCH_USERNAME` is set (to the empty string),
yet the returned mapping keeps the YAML value rather than the variable's
value. -/
theorem readKibanaConfig_env_override_cex :
    envEmptyUser.ELASTICSEARCH_USERNAME = some "" ∧
    readKibanaConfig sampleParse sampleFsProdOnly envEmptyUser =
      Except.ok (mergeSettings
        (some [("elasticsearch.username", "fromyaml")]) envEmptyUser) ∧
    getVal (mergeSettings
        (some [("elasticsearch.username", "fromyaml")]) envEmptyUser)
      "elasticsearch.username" = some "fromyaml" ∧
    (some "fromyaml" : Option String) ≠ some "" := by
  refine ⟨rfl, rfl, by decide, by decide⟩

/-- C2 (amended): an environment variable among the three that is set to a
NON-EMPTY value overrides any YAML or default value for its key. -/
theorem readKibanaConfig_env_override
    (parse : String → Except String (Option (List (String × String))))
    (fs : FileSystem) (env : Env) (cfg : List (String × String))
    (h : readKibanaConfig parse fs env = Except.ok cfg) :
    (∀ u, env.ELASTICSEARCH_USERNAME = some u → u ≠ "" →
      getVal cfg "elasticsearch.username" = some u) ∧
    (∀ p, env.ELASTICSEARCH_PASSWORD = some p → p ≠ "" →
      getVal cfg "elasticsearch.password" = some p) ∧
    (∀ hv, env.ELASTICSEARCH_HOST = some hv → hv ≠ "" →
      getVal cfg "elasticsearch.hosts" = some hv) := by
  obtain ⟨content, doc, hr, hp, rfl⟩ := readKibanaConfig_ok parse fs env cfg h
  refine ⟨fun u hu hne => ?_, fun p hp' hne => ?_, fun hv hh hne => ?_⟩
  · rw [getVal_mergeSettings,
      getVal_cliEsCredentials_username env u hu (by simp [jsTruthyString, hne])]
  · rw [getVal_mergeSettings,
      getVal_cliEsCredentials_password env p hp' (by simp [jsTruthyString, hne])]
  · rw [getVal_mergeSettings,
      getVal_cliEsCredentials_host env hv hh (by simp [jsTruthyString, hne])]

/-- C2 witness: a non-empty `ELASTICSEARCH_USERNAME` wins over the YAML
value for `elasticsearch.username`. -/
theorem readKibanaConfig_env_override_witness :
    envWithUser.ELASTICSEARCH_USERNAME = some "cliuser" ∧
    getVal (mergeSettings
        (some [("elasticsearch.username", "fromyaml")]) envWithUser)
      "elasticsearch.username" = some "cliuser" :=
  ⟨rfl, (readKibanaConfig_env_override sampleParse sampleFsProdOnly envWithUser
      _ rfl).1 "cliuser" rfl (by decide)⟩

/-- C5: every defaulted key has a value in the returned mapping, the
precedence is defaults, then the YAML file, then the env overrides, and
`elasticsearch.hosts` defaults to `http://localhost:9200` when neither the
file nor the environment provides it. -/
theorem readKibanaConfig_defaulted_keys
    (parse : String → Except String (Option (List (String × String))))
    (fs : FileSystem) (env : Env) (content : String)
    (doc : Option (List (String × String)))
    (hr : fs.readFileSync (chosenPath fs) = some content)
    (hp : parse content = Except.ok doc) :
    readKibanaConfig parse fs env = Except.ok (mergeSettings doc env) ∧
    (∀ k ∈ defaultedKeys, (getVal (mergeSettings doc env) k).isSome = true) ∧
    (∀ k, getVal (mergeSettings doc env) k =
      match getVal (cliEsCredentials env) k with
      | some v => some v
      | none =>
        match getVal (doc.getD []) k with
        | some v => some v
        | none => getVal defaultSettings k) ∧
    (getVal (cliEsCredentials env) "elasticsearch.hosts" = none →
     getVal (doc.getD []) "elasticsearch.hosts" = none →
     getVal (mergeSettings doc env) "elasticsearch.hosts" =
       some "http://localhost:9200") := by
  refine ⟨readKibanaConfig_eq_ok parse fs env content doc hr hp, ?_,
    fun k => getVal_mergeSettings doc env k, ?_⟩
  · intro k hk
    have hd : (getVal defaultSettings k).isSome = true := by
      simp only [defaultedKeys, defaultSettings, List.map, List.mem_cons,
        List.not_mem_nil, or_false] at hk
      rcases hk with rfl | rfl | rfl | rfl | rfl | rfl <;> decide
    rw [getVal_mergeSettings]
    cases getVal (cliEsCredentials env) k <;>
      cases getVal (doc.getD []) k <;> simp [hd]
  · intro h1 h2
    rw [getVal_mergeSettings, h1, h2]
    decide

/-- C5 witness: with an empty environment and a YAML file that only sets the
username, the hosts key still has a value. -/
theorem readKibanaConfig_defaulted_keys_witness :
    (getVal (mergeSettings
        (some [("elasticsearch.username", "fromyaml")]) emptyEnv)
      "elasticsearch.hosts").isSome = true :=
  (readKibanaConfig_defaulted_keys sampleParse sampleFsProdOnly emptyEnv
    "user: yaml" (some [("elasticsearch.username", "fromyaml")])
    rfl rfl).2.1 "elasticsearch.hosts" (by decide)

/-- C6: a parse failure of the chosen config file propagates to the caller
as the same error; no settings mapping is returned. -/
theorem readKibanaConfig_parse_failure
    (parse : String → Except String (Option (List (String × String))))
    (fs : FileSystem) (env : Env) (content e : String)
    (hr : fs.readFileSync (chosenPath fs) = some content)
    (hp : parse content = Except.error e) :
    readKibanaConfig parse fs env = Except.error e := by
  unfold readKibanaConfig
  rw [hr]
  simp [hp]

/-- C6 witness: a malformed config file makes the loader fail with the
parser's error. -/
theorem readKibanaConfig_parse_failure_witness :
    readKibanaConfig sampleParse sampleFsBad emptyEnv =
      Except.error "parse failure" :=
  readKibanaConfig_parse_failure sampleParse sampleFsBad emptyEnv
    "bad" "parse failure" rfl rfl

/-- C7: the environment overrides touch only the three elasticsearch
connection keys; every other key of the result equals the
YAML-file-over-defaults merge alone. -/
theorem readKibanaConfig_env_frame
    (parse : String → Except String (Option (List (String × String))))
    (fs : FileSystem) (env : Env) (content : String)
    (doc : Option (List (String × String))) (k : String)
    (hr : fs.readFileSync (chosenPath fs) = some content)
    (hp : parse content = Except.ok doc)
    (h₁ : k ≠ "elasticsearch.username") (h₂ : k ≠ "elasticsearch.password")
    (h₃ : k ≠ "elasticsearch.hosts") :
    readKibanaConfig parse fs env = Except.ok (mergeSettings doc env) ∧
    getVal (mergeSettings doc env) k =
      getVal (defaultSettings ++ doc.getD []) k := by
  refine ⟨readKibanaConfig_eq_ok parse fs env content doc hr hp, ?_⟩
  rw [getVal_mergeSettings, getVal_cliEsCredentials_other env k h₁ h₂ h₃,
    getVal_append]

/-- C7 witness: an APM index key is unaffected by a set username variable. -/
theorem readKibanaConfig_env_frame_witness :
    readKibanaConfig sampleParse sampleFsProdOnly envWithUser =
      Except.ok (mergeSettings
        (some [("elasticsearch.username", "fromyaml")]) envWithUser) ∧
    getVal (mergeSettings
        (some [("elasticsearch.username", "fromyaml")]) envWithUser)
      "xpack.apm.indices.onboarding" =
    getVal (defaultSettings ++ [("elasticsearch.username", "fromyaml")])
      "xpack.apm.indices.onboarding" :=
  readKibanaConfig_env_frame sampleParse sampleFsProdOnly envWithUser
    "user: yaml" (some [("elasticsearch.username", "fromyaml")])
    "xpack.apm.indices.onboarding" rfl rfl (by decide) (by decide) (by decide)

/-- C8: an elasticsearch env var set to the empty string is dropped by
`pickBy(identity)` and behaves exactly as if the variable were absent. -/
theorem readKibanaConfig_empty_env_ignored
    (parse : String → Except String (Option (List (String × String))))
    (fs : FileSystem) (env : Env) :
    (env.ELASTICSEARCH_USERNAME = some "" →
      readKibanaConfig parse fs env =
        readKibanaConfig parse fs
          { env with ELASTICSEARCH_USERNAME := none }) ∧
    (env.ELASTICSEARCH_PASSWORD = some "" →
      readKibanaConfig parse fs env =
        readKibanaConfig parse fs
          { env with ELASTICSEARCH_PASSWORD := none }) ∧
    (env.ELASTICSEARCH_HOST = some "" →
      readKibanaConfig parse fs env =
        readKibanaConfig parse fs
          { env with ELASTICSEARCH_HOST := none }) := by
  obtain ⟨U, P, H⟩ := env
  refine ⟨fun h => ?_, fun h => ?_, fun h => ?_⟩ <;>
    (simp only at h; subst h) <;>
    refine readKibanaConfig_congr_cli parse fs _ _ ?_ <;>
    simp [cliEsCredentials_split, pickByIdentity, jsTruthyString]

/-- C8 witness: the loader output is unchanged when the empty-string
username variable is removed from the environment. -/
theorem readKibanaConfig_empty_env_ignored_witness :
    envEmptyUser.ELASTICSEARCH_USERNAME = some "" ∧
    readKibanaConfig sampleParse sampleFsProdOnly envEmptyUser =
      readKibanaConfig sampleParse sampleFsProdOnly
        { envEmptyUser with ELASTICSEARCH_USERNAME := none } :=
  ⟨rfl, (readKibanaConfig_empty_env_ignored sampleParse sampleFsProdOnly
      envEmptyUser).1 rfl⟩

/-- C9: a YAML parse yielding a null document does not fail: the loaded
config is treated as the empty mapping and the result is the defaults merged
with the env overrides. -/
theorem readKibanaConfig_null_doc
    (parse : String → Except String (Option (List (String × String))))
    (fs : FileSystem) (env : Env) (content : String)
    (hr : fs.readFileSync (chosenPath fs) = some content)
    (hp : parse content = Except.ok none) :
    readKibanaConfig parse fs env =
      Except.ok (defaultSettings ++ cliEsCredentials env) := by
  rw [readKibanaConfig_eq_ok parse fs env content none hr hp]
  simp [mergeSettings]

/-- C9 witness: an empty config file yields the defaults (no env set). -/
theorem readKibanaConfig_null_doc_witness :
    readKibanaConfig sampleParse sampleFsEmptyDoc emptyEnv =
      Except.ok (defaultSettings ++ cliEsCredentials emptyEnv) :=
  readKibanaConfig_null_doc sampleParse sampleFsEmptyDoc emptyEnv "empty"
    rfl rfl

/-! ## Chart component (`chart.tsx`) -/

/-- The values of `UnifiedHistogramSuggestionType` (declared in `../types`,
outside this excerpt); the component only tests membership in
`[lensSuggestion, histogramForESQL]`, so any other value acts alike. -/
inductive SuggestionType where
  | lensSuggestion
  | histogramForESQL
  | histogramForDataView
  | unsupported
  deriving DecidableEq

/-- The observable suggestion context: its `type` and whether its
`suggestion` field is set. -/
structure SuggestionContext where
  suggType : SuggestionType
  suggestionPresent : Bool
  deriving DecidableEq

/-- The `chart` prop; only its `hidden` flag is read by the logic at hand. -/
structure ChartCtx where
  hidden : Bool
  deriving DecidableEq

/-- The observable vis context: whether its `attributes` field is set. -/
structure VisContext where
  attributesPresent : Bool
  deriving DecidableEq

/-- The props and observable values the Chart component's rendering logic
reads; callbacks are represented by their presence. -/
structure ChartInputs where
  isChartAvailable : Bool
  chart : Option ChartCtx
  visContext : Option VisContext
  isPlainRecord : Bool
  suggestionContext : Option SuggestionContext
  renderCustomChartToggleActions : Bool
  onEditVisualization : Bool
  showWriteControls : Bool
  deriving DecidableEq

/-- `chartVisible`, as derived in the component:
`isChartAvailable && !!chart && !chart.hidden && !!visContext &&
!!visContext?.attributes`. -/
def chartVisible (p : ChartInputs) : Bool :=
  p.isChartAvailable &&
    (match p.chart with
     | none => false
     | some c => !c.hidden) &&
    (match p.visContext with
     | none => false
     | some v => v.attributesPresent)

/-- `canCustomizeVisualization`: plain-record mode, a current suggestion,
and a suggestion type among `lensSuggestion` and `histogramForESQL`. -/
def canCustomizeVisualization (p : ChartInputs) : Bool :=
  p.isPlainRecord &&
    (match p.suggestionContext with
     | none => false
     | some ctx =>
       ctx.suggestionPresent &&
         (ctx.suggType == SuggestionType.lensSuggestion ||
          ctx.suggType == SuggestionType.histogramForESQL))

/-- `canEditVisualizationOnTheFly = canCustomizeVisualization && chartVisible`. -/
def canEditVisualizationOnTheFly (p : ChartInputs) : Bool :=
  canCustomizeVisualization p && chartVisible p

/-- `canSaveVisualization = canEditVisualizationOnTheFly &&
services.capabilities.dashboard?.showWriteControls`. -/
def canSaveVisualization (p : ChartInputs) : Bool :=
  canEditVisualizationOnTheFly p && p.showWriteControls

/-- The chart-action buttons pushed into the `actions` array. -/
inductive ChartAction where
  | editOnTheFly (isDisabled : Bool)
  | editInLens
  | save
  deriving DecidableEq

/-- The `actions` array built by the component: the edit-on-the-fly button
(disabled while the flyout is open), else the edit-in-Lens button when the
`useEditVisualization` callback exists; then the save button. -/
def actions (p : ChartInputs) (isFlyoutVisible : Bool) : List ChartAction :=
  (if canEditVisualizationOnTheFly p then
    [ChartAction.editOnTheFly isFlyoutVisible]
   else if p.onEditVisualization then [ChartAction.editInLens]
   else []) ++
  (if canSaveVisualization p then [ChartAction.save] else [])

/-- The parts of the rendered tree the claims are about. -/
structure RenderedChart where
  hiddenPanelOnly : Bool
  actionButtonsRendered : Bool
  renderedActions : List ChartAction
  histogramRendered : Bool
  flyoutRendered : Bool
  saveModalRendered : Bool
  deriving DecidableEq

/-- The render of the Chart component: the early return of the hidden panel
when a custom toggle is supplied and the chart is not visible, the action
`IconButtonGroup` guarded by `chartVisible && actions.length > 0`, the
histogram section guarded by `chartVisible`, the save modal and the edit
flyout with their own guards. -/
def renderChart (p : ChartInputs) (isFlyoutVisible isSaveModalVisible : Bool) :
    RenderedChart :=
  if p.renderCustomChartToggleActions && !chartVisible p then
    { hiddenPanelOnly := true
      actionButtonsRendered := false
      renderedActions := []
      histogramRendered := false
      flyoutRendered := false
      saveModalRendered := false }
  else
    { hiddenPanelOnly := false
      actionButtonsRendered :=
        chartVisible p && !(actions p isFlyoutVisible).isEmpty
      renderedActions :=
        if chartVisible p && !(actions p isFlyoutVisible).isEmpty then
          actions p isFlyoutVisible
        else []
      histogramRendered := chartVisible p
      flyoutRendered :=
        isFlyoutVisible && p.visContext.isSome && p.suggestionContext.isSome
      saveModalRendered :=
        canSaveVisualization p && isSaveModalVisible &&
          (match p.visContext with
           | none => false
           | some v => v.attributesPresent) }

/-- A prop/observable combination with a visible chart but an empty actions
array: not plain-record, no suggestion, no external edit callback. -/
def plainVisibleInputs : ChartInputs where
  isChartAvailable := true
  chart := some ⟨false⟩
  visContext := some ⟨true⟩
  isPlainRecord := false
  suggestionContext := none
  renderCustomChartToggleActions := false
  onEditVisualization := false
  showWriteControls := true

/-- A prop/observable combination where the on-the-fly edit and save actions
are available: visible chart, plain-record mode, a lens suggestion, write
controls. -/
def editableVisibleInputs : ChartInputs where
  isChartAvailable := true
  chart := some ⟨false⟩
  visContext := some ⟨true⟩
  isPlainRecord := true
  suggestionContext := some ⟨SuggestionType.lensSuggestion, true⟩
  renderCustomChartToggleActions := false
  onEditVisualization := false
  showWriteControls := true

/-- C3 counterexample: a visible chart whose actions array is empty, so the
action button group is not rendered even though `chartVisible` is true,
refuting the claimed equivalence with `chartVisible` alone. -/
theorem chart_actions_iff_visible_cex :
    chartVisible plainVisibleInputs = true ∧
    (renderChart plainVisibleInputs false false).actionButtonsRendered = false := by
  decide

/-- C3 (amended): the chart-action button group is rendered exactly when
`chartVisible` is true AND the computed actions array is non-empty; in
particular it is never rendered when `chartVisible` is false. -/
theorem chart_actions_rendered_iff (p : ChartInputs) (fly sm : Bool) :
    ((renderChart p fly sm).actionButtonsRendered = true ↔
      (chartVisible p = true ∧ actions p fly ≠ [])) ∧
    (chartVisible p = false →
      (renderChart p fly sm).actionButtonsRendered = false) := by
  constructor
  · unfold renderChart
    by_cases h : p.renderCustomChartToggleActions && !chartVisible p
    · rw [if_pos h]
      simp only [Bool.and_eq_true, Bool.not_eq_true'] at h
      simp [h.2]
    · rw [if_neg h]
      simp [List.isEmpty_iff]
  · intro h
    unfold renderChart
    by_cases hc : p.renderCustomChartToggleActions && !chartVisible p
    · rw [if_pos hc]
    · rw [if_neg hc]
      simp [h]

/-- C3 witness: with the edit and save actions available the group is
rendered. -/
theorem chart_actions_rendered_iff_witness :
    (renderChart editableVisibleInputs false false).actionButtonsRendered = true :=
  (chart_actions_rendered_iff editableVisibleInputs false false).1.mpr
    ⟨by decide, by decide⟩

/-! ## Flyout state machine (C10) -/

/-- Modelled from the spec: `ChartConfigPanel` (its source is outside this
excerpt) receives `setIsFlyoutVisible` and uses it only to close the flyout,
i.e. it always sets the flag to `false`. -/
def chartConfigPanelClose (_fly : Bool) : Bool := false

/-- The component's `useEffect` on `[chartVisible, isFlyoutVisible]`: it
closes the flyout when the chart is not visible while the flyout is open. -/
def closeFlyoutEffect (p : ChartInputs) (fly : Bool) : Bool :=
  if !chartVisible p && fly then false else fly

/-- One transition of the Chart flyout state: clicking the on-the-fly edit
button (which exists only when `canEditVisualizationOnTheFly` and is
disabled while the flyout is open), the config panel closing the flyout, or
a change of props/observables. The effect runs after every transition. -/
inductive FlyoutStep : ChartInputs × Bool → ChartInputs × Bool → Prop
  | clickEdit (p : ChartInputs)
      (h : canEditVisualizationOnTheFly p = true) :
      FlyoutStep (p, false) (p, closeFlyoutEffect p true)
  | closePanel (p : ChartInputs) (fly : Bool) :
      FlyoutStep (p, fly) (p, closeFlyoutEffect p (chartConfigPanelClose fly))
  | changeInputs (p q : ChartInputs) (fly : Bool) :
      FlyoutStep (p, fly) (q, closeFlyoutEffect q fly)

/-- The states the Chart component can reach, starting from the initial
`useState(false)` flyout state under any props. -/
inductive FlyoutReachable : ChartInputs × Bool → Prop
  | init (p : ChartInputs) : FlyoutReachable (p, false)
  | step (s t : ChartInputs × Bool) (hs : FlyoutReachable s)
      (ht : FlyoutStep s t) : FlyoutReachable t

/-- C10: in every reachable state of the Chart component, the edit flyout is
open only while the chart is visible. -/
theorem flyout_only_when_visible (s : ChartInputs × Bool)
    (h : FlyoutReachable s) (hfly : s.2 = true) : chartVisible s.1 = true := by
  induction h with
  | init p => simp at hfly
  | step s t hs ht ih =>
    cases ht with
    | clickEdit p hce =>
      simp only at hfly ⊢
      unfold closeFlyoutEffect at hfly
      by_cases hcv : chartVisible p = true
      · exact hcv
      · rw [Bool.not_eq_true] at hcv
        rw [hcv] at hfly
        simp at hfly
    | closePanel p fly =>
      simp only [chartConfigPanelClose, closeFlyoutEffect] at hfly
      simp at hfly
    | changeInputs p q fly =>
      simp only at hfly ⊢
      unfold closeFlyoutEffect at hfly
      by_cases hcv : chartVisible q = true
      · exact hcv
      · rw [Bool.not_eq_true] at hcv
        rw [hcv] at hfly
        cases fly <;> simp at hfly

/-- C10 witness: the state reached by opening the flyout through the edit
action has a visible chart. -/
theorem flyout_only_when_visible_witness :
    chartVisible editableVisibleInputs = true :=
  flyout_only_when_visible (editableVisibleInputs, true)
    (FlyoutReachable.step (editableVisibleInputs, false)
      (editableVisibleInputs, true)
      (FlyoutReachable.init editableVisibleInputs)
      (FlyoutStep.clickEdit editableVisibleInputs (by decide)))
    rfl

/-! ## Theme hook (`useIsDarkTheme` in `hooks.ts`) -/

/-- The theme notification payload: only `darkMode` is read. -/
structure CoreTheme where
  darkMode : Bool
  deriving DecidableEq

/-- The default theme used before any notification arrives: light mode. -/
def themeDefault : CoreTheme := ⟨false⟩

/-- The theme service handed to the hook; its notification stream is
modelled as the list of values emitted so far (`none` when the service has
no stream). The source field is named with a trailing dollar sign. -/
structure ThemeServiceStart where
  themeStream : Option (List CoreTheme)

/-- `of(themeDefault)`: an observable that has synchronously emitted exactly
the default value. -/
def ofThemeDefault : List CoreTheme := [themeDefault]

/-- `useObservable(obs$, initial)`: the latest value the observable has
emitted, or the initial value when nothing has been emitted yet. -/
def useObservable (emitted : List CoreTheme) (initial : CoreTheme) : CoreTheme :=
  emitted.getLast?.getD initial

/-- `useIsDarkTheme`: subscribes to `theme?.theme$ ?? of(themeDefault)` with
`themeDefault` as the initial value and returns the `darkMode` field. -/
def useIsDarkTheme (theme : Option ThemeServiceStart) : Bool :=
  let themeObservable := (theme.bind (fun t => t.themeStream)).getD ofThemeDefault
  (useObservable themeObservable themeDefault).darkMode

/-- C4: the hook returns false (light) before any notification has arrived,
returns `b` synchronously once the stream's latest emission is
`{darkMode := b}`, and returns false when the theme service or its stream is
absent. -/
theorem useIsDarkTheme_spec :
    (∀ svc : ThemeServiceStart, svc.themeStream = some [] →
      useIsDarkTheme (some svc) = false) ∧
    (∀ (svc : ThemeServiceStart) (l : List CoreTheme) (b : Bool),
      svc.themeStream = some (l ++ [⟨b⟩]) →
      useIsDarkTheme (some svc) = b) ∧
    useIsDarkTheme none = false ∧
    (∀ svc : ThemeServiceStart, svc.themeStream = none →
      useIsDarkTheme (some svc) = false) := by
  refine ⟨?_, ?_, rfl, ?_⟩
  · intro svc h
    simp [useIsDarkTheme, h, useObservable, themeDefault]
  · intro svc l b h
    simp [useIsDarkTheme, h, useObservable, List.getLast?_concat]
  · intro svc h
    simp [useIsDarkTheme, h, ofThemeDefault, useObservable, themeDefault]

/-- C4 witness: after emissions ending in a dark-mode notification the hook
returns true. -/
theorem useIsDarkTheme_spec_witness :
    useIsDarkTheme (some ⟨some [⟨false⟩, ⟨true⟩]⟩) = true :=
  useIsDarkTheme_spec.2.1 ⟨some [⟨false⟩, ⟨true⟩]⟩ [⟨false⟩] true rfl

end KibanaSpec
